import Mathlib

/-!
Verification of the Device Resolution & Pipeline Supervision subsystem of the
hdmi-usb repository (src/hdmi-usb.py), via a shallow embedding in Lean 4.

External effects (subprocess invocations, sysfs reads, process signals) are
modelled by explicit environment records and oracle functions; the pure
decision logic of each Python function is translated directly.
-/

namespace HdmiUsb

/-! ### String containment helpers (Python `in` on str) -/

/-- `pat` occurs in `s` starting at index `i`. -/
def occursAt (pat s : List Char) (i : Nat) : Bool :=
  pat.isPrefixOf (s.drop i)

/-- `pat` occurs somewhere in `s` (Python `pat in s` for strings). -/
def listHasSub (pat s : List Char) : Bool :=
  (List.range (s.length + 1)).any (occursAt pat s)

/-- Python `pat in s` on strings. -/
def strHasSub (s pat : String) : Bool :=
  listHasSub pat.toList s.toList

/-! ### Capability probe: `HDMIDeviceDetector.is_video_hdmi_usb`

The subprocess part of `is_video_hdmi_usb` is abstracted to its return code
and stdout text; the parsing logic is translated verbatim.  Each Python
regex in `resolution_patterns` is a sequence of literal segments joined by
`.*`; since `.` does not match a newline in Python `re`, a pattern matches
iff some single line contains its segments in order. -/

/-- The literal segments of each pattern in `resolution_patterns`
(lower-cased, matching `re.IGNORECASE`). -/
def resolution_patterns : List (List String) :=
  [["1920", "1080"], ["1280", "720"], ["1920x1080"], ["1280x720"],
   ["width/height", "1920", "1080"], ["width/height", "1280", "720"]]

/-- The segments occur in `cs`, in order (semantics of a regex built from
literals joined by `.*`, matched within one line). -/
def segsInOrder : List String → List Char → Bool
  | [], _ => true
  | s :: rest, cs =>
    (List.range (cs.length + 1)).any (fun i =>
      s.toList.isPrefixOf (cs.drop i) && segsInOrder rest (cs.drop (i + s.toList.length)))

/-- Split a character list on newline characters (Python line structure of
a multi-line tool output). -/
def splitLines : List Char → List (List Char)
  | [] => [[]]
  | c :: rest =>
    match splitLines rest with
    | [] => [[]]
    | l :: ls => if c = '\n' then [] :: l :: ls else (c :: l) :: ls

/-- Lower-case a character list (`re.IGNORECASE` handling). -/
def toLowerL (cs : List Char) : List Char := cs.map Char.toLower

/-- `has_resolution` in `is_video_hdmi_usb`: any of the resolution patterns
matches the probe output (case-insensitively, within a line, since `.` in a
Python regex does not match a newline). -/
def has_resolution (info : String) : Bool :=
  (splitLines (toLowerL info.toList)).any (fun line =>
    resolution_patterns.any (fun p => segsInOrder p line))

/-- The decision logic of `is_video_hdmi_usb` applied to the `v4l2-ctl --all`
invocation result (`returncode`, stdout `info`): non-zero exit rejects; empty
output rejects; missing `Video Capture` marker rejects; a missing resolution
pattern only logs a warning and still accepts. -/
def is_video_hdmi_usb_output (returncode : Int) (info : String) : Bool :=
  if returncode ≠ 0 then false
  else if info = "" then false
  else if ¬ strHasSub info "Video Capture" then false
  else if ¬ has_resolution info then
    -- "Warning: ... has Video Capture but no expected HDMI resolutions
    -- found - will try anyway"
    true
  else true

/-! ### Resolver: `HDMIDeviceDetector.detect_video_device`

`cap` is the outcome of `is_video_hdmi_usb` on a node, `val` the outcome of
`reset_device_state`; the Python `if node and ...` truthiness test on a
string is non-emptiness. -/

/-- `detect_video_device`: first node that is truthy, passes the capability
probe and passes state validation. -/
def detect_video_device (cap val : String → Bool) : List String → Option String
  | [] => none
  | node :: rest =>
    if node = "" then detect_video_device cap val rest
    else if cap node then
      if val node then some node
      else detect_video_device cap val rest
    else detect_video_device cap val rest

/-- The nodes whose capability is probed by `detect_video_device` (the calls
made to `is_video_hdmi_usb`), in order. -/
def detect_probed (cap val : String → Bool) : List String → List String
  | [] => []
  | node :: rest =>
    if node = "" then detect_probed cap val rest
    else node :: (if cap node && val node then [] else detect_probed cap val rest)

/-! ### Health monitor: `RTSPServer._on_media_bus_message` / `on_pipeline_error`

A bus message is an error, a warning or something else; the server state
records the error counter and whether `main_loop.quit` has been scheduled. -/

inductive GstMessage where
  | error (msg : String)
  | warning (msg : String)
  | other
deriving DecidableEq

structure ServerState where
  pipeline_errors : Nat
  main_loop_quit : Bool
deriving DecidableEq

/-- The `critical_keywords` tuple in `_on_media_bus_message`. -/
def critical_keywords : List String := ["resource busy", "failed to", "cannot"]

/-- `any(kw in error_msg.lower() for kw in critical_keywords)`. -/
def is_critical_error (error_msg : String) : Bool :=
  critical_keywords.any (fun kw => listHasSub kw.toList (toLowerL error_msg.toList))

/-- `on_pipeline_error`: count the error and schedule `main_loop.quit`. -/
def on_pipeline_error (s : ServerState) : ServerState :=
  { pipeline_errors := s.pipeline_errors + 1, main_loop_quit := true }

/-- `_on_media_bus_message`: only error messages whose text contains a
critical keyword reach `on_pipeline_error`; warnings are logged only. -/
def on_media_bus_message (s : ServerState) : GstMessage → ServerState
  | GstMessage.error msg =>
    if is_critical_error msg then on_pipeline_error s else s
  | GstMessage.warning _ => s
  | GstMessage.other => s

/-! ### Singleton guard: `kill_existing_instances`

The pgrep pattern is `(^|.*/)(python3?|python)\s+.*<script>` (the script name
is `re.escape`d, hence literal).  `pgrep -f` searches the pattern anywhere in
a process's command line; the embedding below expresses exactly the set of
command lines that admit a match: an interpreter token `python`/`python3`
standing at the start of the command line or right after a `/`, followed by a
whitespace character and, somewhere later, the script name. -/

/-- A match of the pattern `(^|.*/)(python3?|python)\s+.*<script>` exists
somewhere in `cmdline`. -/
def python_cmd_matches (script cmdline : String) : Bool :=
  let s := cmdline.toList
  (List.range (s.length + 1)).any (fun i =>
    (decide (i = 0) ||
      (match s.get? (i - 1) with
       | some c => c = '/'
       | none => false)) &&
    (["python3", "python"].any (fun alt =>
      alt.toList.isPrefixOf (s.drop i) &&
      (match s.drop (i + alt.toList.length) with
       | c :: rest => c.isWhitespace && listHasSub script.toList rest
       | [] => false))))

/-- The signals sent by the first loop of `kill_existing_instances`, given
the pids reported by pgrep, the current pid, and an oracle telling whether a
pid is still alive after SIGTERM and the grace period (the `os.kill(pid, 0)`
probe).  Each entry is a (pid, signal-number) pair; 15 is SIGTERM, 9 is
SIGKILL. -/
def signals_sent (current_pid : Int) (alive_after_term : Int → Bool) :
    List Int → List (Int × Nat)
  | [] => []
  | pid :: rest =>
    if pid ≠ current_pid then
      (pid, 15) ::
        (if alive_after_term pid then
          (pid, 9) :: signals_sent current_pid alive_after_term rest
        else signals_sent current_pid alive_after_term rest)
    else signals_sent current_pid alive_after_term rest

/-! ### USB topology matcher: `_extract_usb_path_tail` / `_find_alsa_card_by_usb_tail`

`re.findall(r'\d+-[\d.]+', real_path)` collects the leftmost non-overlapping
greedy matches of one-or-more digits, a dash, then one-or-more digit-or-dot
characters; the code keeps the last match.  The scan is implemented with an
explicit fuel argument (the string length) so that it is structural and
evaluates inside the kernel. -/

/-- The character class `[\d.]`. -/
def isDotDigit (c : Char) : Bool := c.isDigit || c = '.'

/-- Length of the greedy match of `\d+-[\d.]+` at the head of `cs`, if any. -/
def matchLen (cs : List Char) : Option Nat :=
  let d := (cs.takeWhile Char.isDigit).length
  if d = 0 then none
  else
    match cs.drop d with
    | '-' :: rest =>
      let t := (rest.takeWhile isDotDigit).length
      if t = 0 then none else some (d + 1 + t)
    | _ => none

/-- Fuel-indexed scan for `re.findall(r'\d+-[\d.]+', ·)`. -/
def findallGo : Nat → List Char → List (List Char)
  | 0, _ => []
  | _ + 1, [] => []
  | fuel + 1, c :: cs =>
    match matchLen (c :: cs) with
    | some n => (c :: cs).take n :: findallGo fuel ((c :: cs).drop n)
    | none => findallGo fuel cs

/-- `re.findall(r'\d+-[\d.]+', ·)`: leftmost, non-overlapping, greedy. -/
def findall (cs : List Char) : List (List Char) := findallGo cs.length cs

/-- The extraction applied to an already-resolved real path:
`usb_path_matches[-1] if usb_path_matches else None`. -/
def usb_tail_of (real_path : String) : Option String :=
  ((findall real_path.toList).getLast?).map (fun m => String.mk m)

/-- The sysfs view that `_extract_usb_path_tail` reads for a video node:
whether `/sys/class/video4linux/<node>/device` exists, and its real path. -/
structure VideoSysfs where
  sys_device_exists : Bool
  real_path : String

/-- `_extract_usb_path_tail`: `None` when the sysfs entry is missing,
otherwise the last bus-port-chain token of the resolved real path. -/
def extract_usb_path_tail (v : VideoSysfs) : Option String :=
  if v.sys_device_exists then usb_tail_of v.real_path else none

/-- Python `str.replace` (all non-overlapping occurrences, left to right),
fuel-indexed so it evaluates in the kernel. -/
def replaceLGo (pat repl : List Char) : Nat → List Char → List Char
  | 0, cs => cs
  | _ + 1, [] => []
  | fuel + 1, c :: cs =>
    if !pat.isEmpty && pat.isPrefixOf (c :: cs) then
      repl ++ replaceLGo pat repl fuel ((c :: cs).drop pat.length)
    else c :: replaceLGo pat repl fuel cs

/-- Python `s.replace(pat, repl)`. -/
def str_replace (s pat repl : String) : String :=
  String.mk (replaceLGo pat.toList repl.toList s.toList.length s.toList)

/-- One `/sys/class/sound/card*` entry as `_find_alsa_card_by_usb_tail`
observes it: its basename, whether it is a directory, whether its `device`
link exists, the resolved real path of that link, and how many `pcm*c`
(capture) entries `/proc/asound/card<n>` holds. -/
structure SoundCard where
  name : String
  is_dir : Bool
  device_exists : Bool
  device_real_path : String
  capture_pcm_count : Nat

/-- `_find_alsa_card_by_usb_tail`: first card whose last extracted token
equals `usb_tail` exactly; on that first USB match, the card number is
returned only if the card has a capture PCM entry — otherwise the function
returns `None` outright (it does not keep scanning). -/
def find_alsa_card_by_usb_tail (usb_tail : String) : List SoundCard → Option String
  | [] => none
  | card :: rest =>
    if ¬ card.is_dir then find_alsa_card_by_usb_tail usb_tail rest
    else if ¬ card.device_exists then find_alsa_card_by_usb_tail usb_tail rest
    else
      match usb_tail_of card.device_real_path with
      | none => find_alsa_card_by_usb_tail usb_tail rest
      | some tail =>
        if tail = usb_tail then
          if card.capture_pcm_count ≠ 0 then
            some (str_replace card.name "card" "")
          else none
        else find_alsa_card_by_usb_tail usb_tail rest

/-- Whether the matcher judges a video device (with resolved real path
`video_real_path`) and an audio card (with resolved real path
`audio_real_path`) to be on the same physical USB adapter: run
`_find_alsa_card_by_usb_tail` on the video device's extracted tail against
that single card (directory present, device link present, one capture PCM
entry, so only the address comparison decides). -/
def judged_colocated (video_real_path audio_real_path : String) : Bool :=
  match usb_tail_of video_real_path with
  | none => false
  | some t =>
    (find_alsa_card_by_usb_tail t
      [{ name := "card0", is_dir := true, device_exists := true,
         device_real_path := audio_real_path, capture_pcm_count := 1 }]).isSome

/-! ### Audio card verification and `detect_audio_card` -/

/-- The `/proc/asound/card<n>` and `/sys/class/sound/card<n>/device` state
that `verify_audio_card` reads for a card number. -/
structure AlsaProcCard where
  capture_pcm_count : Nat
  sys_device_exists : Bool
  sys_device_real_path : String

/-- `verify_audio_card`: a card with no `pcm*c` (capture) entry fails; the
USB-backed check is advisory only — whether or not `'usb'` occurs in the real
device path, the function returns `True` (the non-USB case merely logs a
warning). -/
def verify_audio_card (c : AlsaProcCard) : Bool :=
  if c.capture_pcm_count = 0 then false
  else if c.sys_device_exists && strHasSub c.sys_device_real_path "usb" then
    true
  else true

/-- The filesystem state consulted by `detect_audio_card`. -/
structure AudioDetectEnv where
  sound_cards : List SoundCard
  proc_cards : String → AlsaProcCard
  video_sysfs : VideoSysfs

/-- `detect_audio_card`: a forced card is used iff it passes
`verify_audio_card`, with no fallback; otherwise the USB topology matcher
runs, and a matched, verified card is returned — every failure path yields
`None` (video-only), never an error. -/
def detect_audio_card (audio_force_card : Option String)
    (env : AudioDetectEnv) : Option String :=
  match audio_force_card with
  | some forced =>
    if verify_audio_card (env.proc_cards forced) then some forced else none
  | none =>
    match extract_usb_path_tail env.video_sysfs with
    | none => none
    | some usb_tail =>
      match find_alsa_card_by_usb_tail usb_tail env.sound_cards with
      | some audio_card =>
        if audio_card ≠ "" then
          if verify_audio_card (env.proc_cards audio_card) then some audio_card
          else none
        else none
      | none => none

/-! ### State validator: `check_device_streaming` / `reset_device_state`

The subprocess outcomes are abstracted into an environment: whether each
invocation raised (timeout, missing tool — caught by the enclosing
`except` which returns `False`), its return code and captured stderr.  The
field `stream_ok_after_fmt` records the hypothetical outcome of re-running
the streaming test after the format-set repair; the code never reads it. -/

structure DeviceStateEnv where
  query_raises : Bool
  query_returncode : Int
  stream_raises : Bool
  stream_stderr : String
  fmt_raises : Bool
  fmt_returncode : Int
  stream_ok_after_fmt : Bool

/-- `check_device_streaming`: any exception means `False`; otherwise `False`
exactly when stderr mentions `STREAMON` and (lower-cased) `error`. -/
def check_device_streaming (e : DeviceStateEnv) : Bool :=
  if e.stream_raises then false
  else !(strHasSub e.stream_stderr "STREAMON" &&
         listHasSub "error".toList (toLowerL e.stream_stderr.toList))

/-- `reset_device_state`: reject when the capability re-query raises or
exits non-zero; reject when the streaming test fails; then issue the
format-set repair — its return code is ignored, but if that invocation
raises (e.g. `TimeoutExpired`) the enclosing `except` returns `False`;
otherwise settle and return `True`. -/
def reset_device_state (e : DeviceStateEnv) : Bool :=
  if e.query_raises then false
  else if e.query_returncode ≠ 0 then false
  else if ¬ check_device_streaming e then false
  else if e.fmt_raises then false
  else true

/-! ### C1 / C2 theorems -/

/-- C1: `detect_video_device` is first-match-wins: among three candidates
where the first fails (empty node, failed capability probe or failed state
validation) and the second and third would both pass capability and
validation, the resolver returns the second candidate, and the third is
never probed (it does not appear in the list of capability-probed nodes). -/
theorem detect_video_device_first_match_wins
    (cap val : String → Bool) (a b c : String)
    (ha : a = "" ∨ cap a = false ∨ val a = false)
    (hb0 : b ≠ "") (hbc : cap b = true) (hbv : val b = true)
    (hca : c ≠ a) (hcb : c ≠ b) :
    detect_video_device cap val [a, b, c] = some b ∧
      c ∉ detect_probed cap val [a, b, c] := by
  have hstep : detect_video_device cap val [a, b, c] =
      detect_video_device cap val [b, c] := by
    rcases ha with ha | ha | ha <;>
      simp [detect_video_device, ha]
  have hres : detect_video_device cap val [b, c] = some b := by
    simp [detect_video_device, hb0, hbc, hbv]
  have hprobe : detect_probed cap val [a, b, c] =
      (if a = "" then [] else [a]) ++ [b] := by
    by_cases haE : a = "" <;>
      rcases ha with ha | ha | ha <;>
        simp [detect_probed, ha, haE, hb0, hbc, hbv]
  refine ⟨hstep.trans hres, ?_⟩
  rw [hprobe]
  by_cases haE : a = "" <;> simp [haE, hca, hcb]

/-- Witness for C1 at concrete nodes: the first candidate fails validation,
the second and third would pass, and the resolver picks the second without
probing the third. -/
theorem detect_video_device_first_match_wins_witness :
    detect_video_device (fun s => s ≠ "/dev/video9")
        (fun s => s ≠ "/dev/video0") ["/dev/video0", "/dev/video1", "/dev/video2"]
      = some "/dev/video1" ∧
    "/dev/video2" ∉ detect_probed (fun s => s ≠ "/dev/video9")
        (fun s => s ≠ "/dev/video0") ["/dev/video0", "/dev/video1", "/dev/video2"] :=
  detect_video_device_first_match_wins _ _ _ _ _
    (Or.inr (Or.inr (by decide))) (by decide) (by decide) (by decide)
    (by decide) (by decide)

/-- C2: the capability probe's parse is marker-mandatory and
resolution-optional: whenever the probe output lacks the `Video Capture`
marker the device is rejected, and whenever the query succeeded and the
output has the marker the device is accepted even if no resolution pattern
matches the output. -/
theorem is_video_hdmi_usb_marker_policy (returncode : Int) (info : String) :
    (strHasSub info "Video Capture" = false →
      is_video_hdmi_usb_output returncode info = false) ∧
    (returncode = 0 → strHasSub info "Video Capture" = true →
      has_resolution info = false →
      is_video_hdmi_usb_output returncode info = true) := by
  constructor
  · intro hmark
    by_cases hrc : returncode ≠ 0
    · simp [is_video_hdmi_usb_output, hrc]
    · by_cases hE : info = "" <;>
        simp [is_video_hdmi_usb_output, hrc, hE, hmark]
  · intro hrc hmark hres
    have hE : info ≠ "" := by
      intro h
      rw [h] at hmark
      exact absurd hmark (by decide)
    simp [is_video_hdmi_usb_output, hrc, hE, hmark, hres]

/-- Witness for C2: an output with the capture marker but no expected
resolution token is accepted; an output without the marker is rejected. -/
theorem is_video_hdmi_usb_marker_policy_witness :
    is_video_hdmi_usb_output 0 "Video Capture\n  Size: 640x480" = true ∧
    is_video_hdmi_usb_output 0 "Metadata Capture\n  Size: 1920x1080" = false :=
  ⟨(is_video_hdmi_usb_marker_policy 0 "Video Capture\n  Size: 640x480").2
      rfl (by decide) (by decide),
   (is_video_hdmi_usb_marker_policy 0 "Metadata Capture\n  Size: 1920x1080").1
      (by decide)⟩

/-! ### C3 theorems -/

/-- C3 counterexample: the error message `"Device busy"` contains the marker
`"busy"` named by the claim, yet the health monitor does not classify it
fatal and does not schedule shutdown — the code's keyword is the longer
`"resource busy"`. -/
theorem bus_message_busy_marker_counterexample :
    listHasSub "busy".toList (toLowerL "Device busy".toList) = true ∧
    on_media_bus_message ⟨0, false⟩ (GstMessage.error "Device busy") = ⟨0, false⟩ := by
  constructor
  · decide
  · decide

/-- C3 (amended): an error message is classified fatal iff its lower-cased
text contains one of `"resource busy"`, `"failed to"`, `"cannot"`; on the
first fatal classification the supervisor schedules `main_loop.quit` (and
only counts the error — it never rebuilds the pipeline), non-critical error
messages leave the state unchanged, and warning messages never trigger
shutdown. -/
theorem bus_message_fatal_classification (s : ServerState) (msg : String) :
    (is_critical_error msg = true →
      (on_media_bus_message s (GstMessage.error msg)).main_loop_quit = true ∧
      (on_media_bus_message s (GstMessage.error msg)).pipeline_errors =
        s.pipeline_errors + 1) ∧
    (is_critical_error msg = false →
      on_media_bus_message s (GstMessage.error msg) = s) ∧
    (on_media_bus_message s (GstMessage.warning msg) = s) := by
  refine ⟨fun h => ?_, fun h => ?_, rfl⟩
  · simp [on_media_bus_message, h, on_pipeline_error]
  · simp [on_media_bus_message, h]

/-- Witness for the amended C3: a `"Resource busy"` error schedules shutdown,
a warning never does. -/
theorem bus_message_fatal_classification_witness :
    (on_media_bus_message ⟨0, false⟩
      (GstMessage.error "Resource busy or not available")).main_loop_quit = true ∧
    on_media_bus_message ⟨0, false⟩
      (GstMessage.warning "decode glitch") = ⟨0, false⟩ :=
  ⟨((bus_message_fatal_classification ⟨0, false⟩
      "Resource busy or not available").1 (by decide)).1,
   (bus_message_fatal_classification ⟨0, false⟩ "decode glitch").2.2⟩

/-! ### C4 theorem -/

/-- C4: evaluation of the guard's process-match pattern at the failing input.
A wrapper command line that invokes the interpreter by absolute path,
`"timeout 30 /usr/bin/python3 hdmi-rtsp-unified.py"`, IS matched by the
pattern (the `.*/` alternative absorbs the wrapper prefix up to `/usr/bin/`),
so the wrapper process would be signalled — contradicting the claim that
wrapper processes are never matched.  The anchoring only protects wrappers
that invoke the interpreter by bare name. -/
theorem wrapper_cmdline_matched :
    python_cmd_matches "hdmi-rtsp-unified.py"
      "timeout 30 /usr/bin/python3 hdmi-rtsp-unified.py" = true ∧
    python_cmd_matches "hdmi-rtsp-unified.py"
      "timeout 30 python3 hdmi-rtsp-unified.py" = false ∧
    python_cmd_matches "hdmi-rtsp-unified.py"
      "python3 hdmi-rtsp-unified.py" = true := by
  refine ⟨?_, ?_, ?_⟩ <;> decide

/-! ### C10 theorem -/

/-- C10: the singleton guard never signals its own process: whatever pid list
pgrep reports and whatever processes survive SIGTERM, no (pid, signal) pair
sent by the kill loop targets the current pid. -/
theorem signals_never_target_self (current_pid : Int) (alive_after_term : Int → Bool)
    (pids : List Int) :
    ((signals_sent current_pid alive_after_term pids).all
      (fun e => e.1 != current_pid)) = true := by
  induction pids with
  | nil => rfl
  | cons pid rest ih =>
    by_cases h : pid = current_pid
    · simp [signals_sent, h, ih]
    · by_cases ha : alive_after_term pid <;>
        simp [signals_sent, h, ha, ih]

/-! ### Structural lemmas about the `\d+-[\d.]+` scan -/

/-- Elimination form of a successful `matchLen`. -/
theorem matchLen_spec {cs : List Char} {n : Nat} (h : matchLen cs = some n) :
    ∃ rest, (cs.takeWhile Char.isDigit).length ≠ 0 ∧
      cs.drop (cs.takeWhile Char.isDigit).length = '-' :: rest ∧
      (rest.takeWhile isDotDigit).length ≠ 0 ∧
      n = (cs.takeWhile Char.isDigit).length + 1 +
        (rest.takeWhile isDotDigit).length := by
  simp only [matchLen] at h
  split at h
  · exact absurd h (by simp)
  · split at h
    case _ d rest heq =>
      split at h
      · exact absurd h (by simp)
      · rename_i h0 ht
        exact ⟨rest, h0, heq, ht, by injection h with h; omega⟩
    case _ => exact absurd h (by simp)

/-- A successful match is non-empty. -/
theorem matchLen_pos {cs : List Char} {n : Nat} (h : matchLen cs = some n) :
    0 < n := by
  obtain ⟨rest, _, _, _, hn⟩ := matchLen_spec h
  omega

/-- A successful match does not exceed the scanned text. -/
theorem matchLen_le {cs : List Char} {n : Nat} (h : matchLen cs = some n) :
    n ≤ cs.length := by
  obtain ⟨rest, h0, heq, ht, hn⟩ := matchLen_spec h
  have h1 : (cs.takeWhile Char.isDigit).length ≤ cs.length :=
    (List.takeWhile_prefix _).length_le
  have h2 : cs.length - (cs.takeWhile Char.isDigit).length = rest.length + 1 := by
    have := congrArg List.length heq
    simpa [List.length_drop] using this
  have h3 : (rest.takeWhile isDotDigit).length ≤ rest.length :=
    (List.takeWhile_prefix _).length_le
  omega

/-- `takeWhile` stops exactly at a failing element placed after an
all-passing block. -/
theorem takeWhile_append_cons_of {α : Type} (p : α → Bool) (xs : List α)
    (y : α) (ys : List α) (hxs : ∀ x ∈ xs, p x = true) (hy : p y = false) :
    (xs ++ y :: ys).takeWhile p = xs := by
  induction xs with
  | nil => simp [List.takeWhile_cons, hy]
  | cons a as ih =>
    have ha : p a = true := hxs a (List.mem_cons_self a as)
    rw [List.cons_append, List.takeWhile_cons_of_pos ha,
      ih (fun x hx => hxs x (List.mem_cons_of_mem a hx))]

/-- Introduction form: a digit block, a dash and a dot-digit block make a
full greedy match. -/
theorem matchLen_build (A B : List Char)
    (hA : ∀ x ∈ A, Char.isDigit x = true) (hA0 : A ≠ [])
    (hB : ∀ x ∈ B, isDotDigit x = true) (hB0 : B ≠ []) :
    matchLen (A ++ '-' :: B) = some (A.length + 1 + B.length) := by
  have htw : (A ++ '-' :: B).takeWhile Char.isDigit = A :=
    takeWhile_append_cons_of _ _ _ _ hA (by decide)
  have hlenA : A.length ≠ 0 := by
    intro hz
    exact hA0 (List.length_eq_zero.mp hz)
  have hdrop : (A ++ '-' :: B).drop A.length = '-' :: B := List.drop_left A _
  have htwB : B.takeWhile isDotDigit = B := List.takeWhile_eq_self_iff.mpr hB
  have hlenB : B.length ≠ 0 := by
    intro hz
    exact hB0 (List.length_eq_zero.mp hz)
  simp only [matchLen, htw, hdrop, htwB]
  rw [if_neg hlenA, if_neg hlenB]

/-- The text of a successful match is itself a full match of the same
length (the core of extraction idempotence). -/
theorem matchLen_take {cs : List Char} {n : Nat} (h : matchLen cs = some n) :
    matchLen (cs.take n) = some n := by
  obtain ⟨rest, h0, heq, ht, hn⟩ := matchLen_spec h
  have hAcs : cs.takeWhile Char.isDigit =
      cs.take (cs.takeWhile Char.isDigit).length :=
    List.prefix_iff_eq_take.mp (List.takeWhile_prefix _)
  have hcs : cs = cs.takeWhile Char.isDigit ++ '-' :: rest := by
    conv_lhs => rw [← List.take_append_drop (cs.takeWhile Char.isDigit).length cs]
    rw [← hAcs, heq]
  have hBr : rest.takeWhile isDotDigit =
      rest.take (rest.takeWhile isDotDigit).length :=
    List.prefix_iff_eq_take.mp (List.takeWhile_prefix _)
  have htake : cs.take n =
      cs.takeWhile Char.isDigit ++ '-' :: rest.takeWhile isDotDigit := by
    conv_lhs => rw [hcs]
    rw [hn, Nat.add_assoc, List.take_append, List.take_cons]
    · rw [Nat.add_sub_cancel_left, ← hBr]
    · omega
  rw [htake]
  have hres := matchLen_build (cs.takeWhile Char.isDigit)
    (rest.takeWhile isDotDigit)
    (fun x hx => List.mem_takeWhile_imp hx)
    (by intro hz; rw [hz] at h0; exact h0 rfl)
    (fun x hx => List.mem_takeWhile_imp hx)
    (by intro hz; rw [hz] at ht; exact ht rfl)
  rw [hres, hn]

/-- The fuel argument of the scan is irrelevant once it covers the text. -/
theorem findallGo_congr : ∀ (f1 f2 : Nat) (cs : List Char),
    cs.length ≤ f1 → cs.length ≤ f2 → findallGo f1 cs = findallGo f2 cs
  | 0, f2, cs, h1, _ => by
    have hz : cs = [] := List.length_eq_zero.mp (Nat.le_zero.mp h1)
    subst hz
    cases f2 <;> rfl
  | _ + 1, f2, [], _, _ => by cases f2 <;> rfl
  | _ + 1, 0, _ :: _, _, h2 => by simp at h2
  | f1 + 1, f2 + 1, c :: cs, h1, h2 => by
    simp only [findallGo]
    cases h : matchLen (c :: cs) with
    | none =>
      exact findallGo_congr f1 f2 cs (by simp at h1; omega) (by simp at h2; omega)
    | some n =>
      have hp := matchLen_pos h
      dsimp only
      rw [findallGo_congr f1 f2 ((c :: cs).drop n)
        (by simp [List.length_drop] at *; omega)
        (by simp [List.length_drop] at *; omega)]

/-- One-step unfolding of the scan. -/
theorem findall_cons (c : Char) (cs : List Char) :
    findall (c :: cs) =
      match matchLen (c :: cs) with
      | some n => (c :: cs).take n :: findall ((c :: cs).drop n)
      | none => findall cs := by
  show findallGo (cs.length + 1) (c :: cs) = _
  simp only [findallGo]
  cases h : matchLen (c :: cs) with
  | none => rfl
  | some n =>
    have hp := matchLen_pos h
    have hcongr : findallGo cs.length ((c :: cs).drop n) =
        findall ((c :: cs).drop n) :=
      findallGo_congr cs.length ((c :: cs).drop n).length _
        (by simp [List.length_drop]; omega) (Nat.le_refl _)
    dsimp only
    rw [hcongr]

/-- A text that is one full match scans to exactly itself. -/
theorem findall_of_full_match {cs : List Char} (h : matchLen cs = some cs.length) :
    findall cs = [cs] := by
  cases cs with
  | nil => exact absurd (matchLen_pos h) (by simp)
  | cons c cs' =>
    rw [findall_cons, h]
    simp [List.take_length, List.drop_length, findall, findallGo]

/-- Every string the scan returns is itself a full greedy match. -/
theorem mem_findall_isToken : ∀ (k : Nat) (cs : List Char), cs.length ≤ k →
    ∀ m ∈ findall cs, matchLen m = some m.length
  | 0, cs, h, m, hm => by
    have hz : cs = [] := List.length_eq_zero.mp (Nat.le_zero.mp h)
    subst hz
    simp [findall, findallGo] at hm
  | _ + 1, [], _, m, hm => by simp [findall, findallGo] at hm
  | k + 1, c :: cs', h, m, hm => by
    rw [findall_cons] at hm
    cases hmat : matchLen (c :: cs') with
    | none =>
      rw [hmat] at hm
      exact mem_findall_isToken k cs' (by simp at h; omega) m hm
    | some n =>
      rw [hmat] at hm
      simp only [List.mem_cons] at hm
      cases hm with
      | inl he =>
        subst he
        have hle := matchLen_le hmat
        have hlen : ((c :: cs').take n).length = n := by
          rw [List.length_take]
          exact Nat.min_eq_left hle
        rw [hlen]
        exact matchLen_take hmat
      | inr hm2 =>
        have hp := matchLen_pos hmat
        refine mem_findall_isToken k ((c :: cs').drop n) ?_ m hm2
        simp only [List.length_drop, List.length_cons]
        simp only [List.length_cons] at h
        omega

/-- C5's idempotence core: extracting the tail of an extracted tail gives
the same tail back. -/
theorem usb_tail_of_idem {p t : String} (h : usb_tail_of p = some t) :
    usb_tail_of t = some t := by
  unfold usb_tail_of at h
  obtain ⟨m, hg, hmk⟩ : ∃ m, (findall p.toList).getLast? = some m ∧
      String.mk m = t := by
    cases hg : (findall p.toList).getLast? with
    | none => rw [hg] at h; exact absurd h (by simp)
    | some m =>
      rw [hg] at h
      exact ⟨m, rfl, by injection h⟩
  have hmem : m ∈ findall p.toList := List.mem_of_mem_getLast? hg
  have htok : matchLen m = some m.length :=
    mem_findall_isToken p.toList.length p.toList (Nat.le_refl _) m hmem
  have htl : t.toList = m := by rw [← hmk]; rfl
  unfold usb_tail_of
  rw [htl, findall_of_full_match htok]
  simp [hmk]

/-! ### C5 / C6 theorems -/

/-- C5: USB-address pairing is exact-match only on the last extracted
bus-port-chain token: (1) whenever two resolved real paths yield the same
last token — regardless of any unrelated prefix difference — the matcher
judges the devices co-located; (2) whenever the extracted tokens differ the
devices are never judged co-located; (3) extraction is idempotent: applying
the extraction to an extracted token returns the token itself. -/
theorem usb_pairing_exact_match :
    (∀ p q t : String, usb_tail_of p = some t → usb_tail_of q = some t →
      judged_colocated p q = true) ∧
    (∀ p q tp tq : String, usb_tail_of p = some tp → usb_tail_of q = some tq →
      tp ≠ tq → judged_colocated p q = false) ∧
    (∀ p t : String, usb_tail_of p = some t → usb_tail_of t = some t) := by
  refine ⟨?_, ?_, fun p t h => usb_tail_of_idem h⟩
  · intro p q t hp hq
    simp [judged_colocated, hp, find_alsa_card_by_usb_tail, hq]
  · intro p q tp tq hp hq hne
    simp [judged_colocated, hp, find_alsa_card_by_usb_tail, hq,
      Ne.symm hne]

/-- Witness for C5 at synthetic sysfs paths: equal last tokens with
unrelated prefixes are judged co-located, different last tokens are not,
and extraction of a token is idempotent. -/
theorem usb_pairing_exact_match_witness :
    judged_colocated "/sys/devices/pci0000:00/usb3/3-8/3-8.3/3-8.3.3:1.0/video4linux/video0"
      "/sys/other/root/usb1/3-8.3.3:1.2/sound/card1" = true ∧
    judged_colocated "/sys/devices/pci0000:00/usb3/3-8/3-8.3/3-8.3.3:1.0/video4linux/video0"
      "/sys/devices/pci0000:00/usb3/3-8/3-8.4/3-8.4.1:1.2/sound/card2" = false ∧
    usb_tail_of "3-8.3.3" = some "3-8.3.3" :=
  ⟨usb_pairing_exact_match.1 _ _ "3-8.3.3" (by decide) (by decide),
   usb_pairing_exact_match.2.1 _ _ "3-8.3.3" "3-8.4.1" (by decide) (by decide)
     (by decide),
   usb_pairing_exact_match.2.2 "/sys/devA/3-8.3.3:1.0" "3-8.3.3" (by decide)⟩

/-- C6: a card with zero capture-direction PCM entries is never the pairing
result: (1) any card number `_find_alsa_card_by_usb_tail` returns belongs to
a card with at least one capture PCM entry; (2) when the first USB-matched
card lacks capture PCMs, the function returns `None` outright — it does not
retry the remaining cards. -/
theorem find_alsa_card_capture_required :
    (∀ (usb_tail : String) (cards : List SoundCard) (n : String),
      find_alsa_card_by_usb_tail usb_tail cards = some n →
      ∃ c ∈ cards, str_replace c.name "card" "" = n ∧ c.capture_pcm_count ≠ 0) ∧
    (∀ (usb_tail : String) (c : SoundCard) (rest : List SoundCard),
      c.is_dir = true → c.device_exists = true →
      usb_tail_of c.device_real_path = some usb_tail →
      c.capture_pcm_count = 0 →
      find_alsa_card_by_usb_tail usb_tail (c :: rest) = none) := by
  constructor
  · intro tail cards
    induction cards with
    | nil => intro n h; simp [find_alsa_card_by_usb_tail] at h
    | cons c rest ih =>
      intro n h
      by_cases h1 : c.is_dir
      · by_cases h2 : c.device_exists
        · cases hu : usb_tail_of c.device_real_path with
          | none =>
            rw [find_alsa_card_by_usb_tail, if_neg (by simp [h1]),
              if_neg (by simp [h2]), hu] at h
            obtain ⟨c', hc', hrep, hcap⟩ := ih n h
            exact ⟨c', List.mem_cons_of_mem c hc', hrep, hcap⟩
          | some t' =>
            rw [find_alsa_card_by_usb_tail, if_neg (by simp [h1]),
              if_neg (by simp [h2]), hu] at h
            dsimp only at h
            by_cases ht : t' = tail
            · rw [if_pos ht] at h
              by_cases hc : c.capture_pcm_count ≠ 0
              · rw [if_pos hc] at h
                injection h with h
                exact ⟨c, List.mem_cons_self c rest, h, hc⟩
              · rw [if_neg hc] at h
                exact absurd h (by simp)
            · rw [if_neg ht] at h
              obtain ⟨c', hc', hrep, hcap⟩ := ih n h
              exact ⟨c', List.mem_cons_of_mem c hc', hrep, hcap⟩
        · rw [find_alsa_card_by_usb_tail, if_neg (by simp [h1]),
            if_pos (by simp [h2])] at h
          obtain ⟨c', hc', hrep, hcap⟩ := ih n h
          exact ⟨c', List.mem_cons_of_mem c hc', hrep, hcap⟩
      · rw [find_alsa_card_by_usb_tail, if_pos (by simp [h1])] at h
        obtain ⟨c', hc', hrep, hcap⟩ := ih n h
        exact ⟨c', List.mem_cons_of_mem c hc', hrep, hcap⟩
  · intro tail c rest h1 h2 hu hc
    simp [find_alsa_card_by_usb_tail, h1, h2, hu, hc]

/-- Witness for C6: a card whose real path carries the exact matching USB
token but has no capture PCM entry makes the matcher return `None`, even
with further cards available. -/
theorem find_alsa_card_capture_required_witness :
    find_alsa_card_by_usb_tail "3-8.3.3"
      [{ name := "card5", is_dir := true, device_exists := true,
         device_real_path := "/sys/x/3-8.3.3:1.2", capture_pcm_count := 0 },
       { name := "card6", is_dir := true, device_exists := true,
         device_real_path := "/sys/x/3-8.3.3:1.3", capture_pcm_count := 2 }] = none :=
  find_alsa_card_capture_required.2 "3-8.3.3" _ _ rfl rfl (by decide) rfl

/-! ### C7 / C8 theorems -/

/-- C7 counterexample: a device whose streaming test fails on the first
attempt (stderr reports `STREAMON` with an error) and which would succeed
after the format-set repair is nevertheless rejected by
`reset_device_state` — the repair is never issued before a retry; the claim
that validation returns true for such a device is false. -/
theorem device_stuck_recovery_counterexample :
    check_device_streaming
      ⟨false, 0, false, "VIDIOC_STREAMON returned -1 (error)", false, 0, true⟩ = false ∧
    (⟨false, 0, false, "VIDIOC_STREAMON returned -1 (error)", false, 0, true⟩ :
      DeviceStateEnv).stream_ok_after_fmt = true ∧
    reset_device_state
      ⟨false, 0, false, "VIDIOC_STREAMON returned -1 (error)", false, 0, true⟩ = false := by
  refine ⟨by decide, rfl, by decide⟩

/-- C7 (amended): a device whose minimal streaming test fails on the first
attempt is rejected by `reset_device_state` (validation returns false),
even if the device would stream successfully after the explicit format-set
repair; the repair is only issued after an already-successful streaming
test. -/
theorem reset_device_state_rejects_failed_stream (e : DeviceStateEnv)
    (h : check_device_streaming e = false) :
    reset_device_state e = false := by
  simp [reset_device_state, h]

/-- Witness for the amended C7: concrete stuck device, rejected. -/
theorem reset_device_state_rejects_failed_stream_witness :
    reset_device_state
      ⟨false, 0, false, "VIDIOC_STREAMON: error 16", true, 0, true⟩ = false :=
  reset_device_state_rejects_failed_stream _ (by decide)

/-- C8 counterexample: a timeout (raised exception) of the format-set
request makes `reset_device_state` return false even though the capability
query and the streaming test both succeeded — contradicting the claim that
every outcome of the format-set request leaves validation true. -/
theorem fmt_repair_timeout_counterexample :
    check_device_streaming ⟨false, 0, false, "", true, 0, true⟩ = true ∧
    reset_device_state ⟨false, 0, false, "", true, 0, true⟩ = false := by
  refine ⟨by decide, by decide⟩

/-- C8 (amended): the format-set repair is best-effort with respect to its
exit status only: when the query and streaming test succeed, validation
returns true for every exit status of the completed format-set request (the
result is ignored), but if that request raises — e.g. times out — the
enclosing handler makes validation return false. -/
theorem reset_device_state_fmt_best_effort (e : DeviceStateEnv) (rc : Int)
    (hq : e.query_raises = false) (hrc : e.query_returncode = 0)
    (hs : check_device_streaming e = true) :
    (e.fmt_raises = false → reset_device_state e = true) ∧
    (e.fmt_raises = true → reset_device_state e = false) ∧
    reset_device_state { e with fmt_returncode := rc } = reset_device_state e := by
  refine ⟨fun hf => ?_, fun hf => ?_, rfl⟩
  · simp [reset_device_state, hq, hrc, hs, hf]
  · simp [reset_device_state, hq, hrc, hs, hf]

/-- Witness for the amended C8: a format-set exiting non-zero (code 1) that
does not raise leaves validation true. -/
theorem reset_device_state_fmt_best_effort_witness :
    reset_device_state ⟨false, 0, false, "", false, 1, true⟩ = true :=
  (reset_device_state_fmt_best_effort ⟨false, 0, false, "", false, 1, true⟩ 1
    rfl rfl (by decide)).1 rfl

/-! ### C9 theorem -/

/-- C9: a forced audio-card override that fails the capture-PCM
verification makes `detect_audio_card` return `None` (video-only), with no
error path — the embedding is total and the override branch never consults
the topology matcher as a fallback. -/
theorem detect_audio_card_forced_degrade (forced : String)
    (env : AudioDetectEnv)
    (h : (env.proc_cards forced).capture_pcm_count = 0) :
    detect_audio_card (some forced) env = none := by
  simp [detect_audio_card, verify_audio_card, h]

/-- Witness for C9: concrete override card with no capture PCM entries
resolves to no audio card. -/
theorem detect_audio_card_forced_degrade_witness :
    detect_audio_card (some "3")
      { sound_cards := [],
        proc_cards := fun _ =>
          { capture_pcm_count := 0, sys_device_exists := true,
            sys_device_real_path := "/sys/usb/x" },
        video_sysfs := { sys_device_exists := false, real_path := "" } } = none :=
  detect_audio_card_forced_degrade "3" _ rfl

end HdmiUsb
